import Mathlib

/-!
# Verification of the LoL win-prediction analyzer

Shallow embedding of the analytical core of the `LoL-Win-Prediction-Analyzer`
repository, together with proofs of the specified properties.

* The TypeScript streaming client (`lib/api.ts`, `lib/analysisContract.ts`,
  `components/AnalysisProgressCard.tsx`) is embedded directly from the source.
* The Python ML pipeline (`ml/pipeline.py`, `ml/training.py`,
  `ml/timeline_analysis.py`, `routers/analysis.py`) is not part of the
  available sources; those components are modelled from the specification
  (each such definition carries a `Modelled from the spec:` comment).

JavaScript numbers are modelled as rationals (JSON numbers are always
finite); the non-finite results of JS numeric coercion (`NaN`, `±Infinity`)
are modelled as `none : Option ℚ`.
-/

namespace LolAnalyzer

/-! ## JSON values

`JValue` models the result of `JSON.parse` on one line of the stream.
An `Option JValue` models a possibly-failing parse (`none` = the line was
empty or not valid JSON) and, at field positions, a possibly-absent field
(`none` = the JS value `undefined`). -/

/-- A parsed JSON value. Object fields are kept as an association list
 (first binding wins on lookup; the backend emits no duplicate keys). -/
inductive JValue : Type where
  | null : JValue
  | bool : Bool → JValue
  | num : ℚ → JValue
  | str : String → JValue
  | arr : List JValue → JValue
  | obj : List (String × JValue) → JValue
  deriving Repr

/-- Field access `v["k"]` on an object; `none` models JS `undefined`. -/
def jGet (fields : List (String × JValue)) (key : String) : Option JValue :=
  (fields.find? (fun p => p.1 == key)).map (·.2)

/-- JS `Number(s)` on a string, for the decimal fragment: optional
whitespace, optional sign, digits with an optional fractional part.
The remaining JS formats (exponents, hex, `"Infinity"`) do not occur in the
backend's payloads and are conservatively mapped to `none` (not-a-number). -/
def jsStringToNumber (s : String) : Option ℚ :=
  let t := s.trim.data
  if t.isEmpty then some 0
  else
    let (sign, body) : ℚ × List Char :=
      match t with
      | '-' :: r => (-1, r)
      | '+' :: r => (1, r)
      | _ => (1, t)
    let ip := body.takeWhile Char.isDigit
    let rest := body.dropWhile Char.isDigit
    let digitsVal (cs : List Char) : ℕ :=
      cs.foldl (fun a c => a * 10 + (c.toNat - 48)) 0
    match rest with
    | [] =>
      if ip.isEmpty then none
      else some (sign * digitsVal ip)
    | '.' :: fp =>
      if fp.all Char.isDigit ∧ ¬(ip.isEmpty ∧ fp.isEmpty) then
        some (sign * (digitsVal ip + (digitsVal fp : ℚ) / (10 : ℚ) ^ fp.length))
      else none
    | _ => none

/-- JS `Number(v)` coercion on a JSON value; `none` models a non-finite
result. Arrays and objects coerce through `toString` in JS; the backend
never places them at numeric positions, so they are mapped to `none`
(`NaN`), matching JS for every non-trivial array and every plain object. -/
def jsToNumber : JValue → Option ℚ
  | .null => some 0
  | .bool b => some (if b then 1 else 0)
  | .num q => some q
  | .str s => jsStringToNumber s
  | .arr _ => none
  | .obj _ => none

/-- JS `typeof v === 'number' ? v : Number(v)` applied to a possibly-absent
value (`Number(undefined)` is `NaN`, i.e. `none`). -/
def jsToNumberOpt : Option JValue → Option ℚ
  | none => none
  | some v => jsToNumber v

/-! ## `clampPercent` — `lib/api.ts` lines 11–15

The identical function also appears in `components/AnalysisProgressCard.tsx`
(lines 48–52); this single definition embeds both copies. `Math.round` in JS
is `⌊x + 1/2⌋`, which is Mathlib's `round` on `ℚ`. -/

/-- `clampPercent(value)`: coerce to number, map non-finite to 0, otherwise
round and clamp into `[0, 100]`. -/
def clampPercent (value : Option JValue) : ℤ :=
  match jsToNumberOpt value with
  | none => 0
  | some n => max 0 (min 100 (round n))

/-! ## Stream event parsing — `lib/api.ts` lines 6–75 -/

/-- Rate-limit telemetry attached to progress events. -/
structure RiotApiLimits : Type where
  maxConcurrent : ℤ
  inFlight : ℤ
  queued : ℤ
  deriving Repr

/-- Server-side queue telemetry attached to progress events. -/
structure QueueStats : Type where
  maxConcurrent : ℤ
  active : ℤ
  queued : ℤ
  deriving Repr

/-- `parseLimits(limits)` (lib/api.ts lines 17–30): requires an object whose
three fields all coerce to finite numbers; floors and clamps them. A JS
array passes the `typeof` check but has none of the fields, which is the
same as the `none` fallthrough here. -/
def parseLimits : Option JValue → Option RiotApiLimits
  | some (.obj fields) =>
    match jsToNumberOpt (jGet fields "maxConcurrent"),
        jsToNumberOpt (jGet fields "inFlight"),
        jsToNumberOpt (jGet fields "queued") with
    | some mc, some fl, some qd =>
      some { maxConcurrent := max 1 ⌊mc⌋, inFlight := max 0 ⌊fl⌋, queued := max 0 ⌊qd⌋ }
    | _, _, _ => none
  | _ => none

/-- `parseQueueStats(q)` (lib/api.ts lines 32–44). -/
def parseQueueStats : Option JValue → Option QueueStats
  | some (.obj fields) =>
    match jsToNumberOpt (jGet fields "maxConcurrent"),
        jsToNumberOpt (jGet fields "active"),
        jsToNumberOpt (jGet fields "queued") with
    | some mc, some ac, some qd =>
      some { maxConcurrent := max 1 ⌊mc⌋, active := max 0 ⌊ac⌋, queued := max 0 ⌊qd⌋ }
    | _, _, _ => none
  | _ => none

/-- `typeof event.queuePosition === 'number' ? Math.max(0, Math.floor(..)) : undefined`. -/
def parseQueuePosition : Option JValue → Option ℤ
  | some (.num q) => some (max 0 ⌊q⌋)
  | _ => none

/-- The discriminated union `AnalyzeStreamEvent` of `lib/api.ts`.
`result.data` is `Option JValue` because `event.data` may be absent. -/
inductive AnalyzeStreamEvent : Type where
  | progress (message : String) (percent : ℤ) (stage : Option String)
      (limits : Option RiotApiLimits) (queue : Option QueueStats)
      (queuePosition : Option ℤ)
  | result (data : Option JValue)
  | error (message : String)
  deriving Repr

/-- `parseAnalyzeEvent(line)` (lib/api.ts lines 46–75), applied to the
`JSON.parse` outcome of the line (`none` = the parse threw). A parsed JS
array passes `typeof event === 'object'` but has no `type` property, so it
falls through to `undefined` exactly like the non-object cases here. -/
def parseAnalyzeEvent : Option JValue → Option AnalyzeStreamEvent
  | some (.obj fields) =>
    match jGet fields "type" with
    | some (.str t) =>
      if t == "progress" then
        match jGet fields "message" with
        | some (.str msg) =>
          some (.progress msg (clampPercent (jGet fields "percent"))
            (match jGet fields "stage" with | some (.str s) => some s | _ => none)
            (parseLimits (jGet fields "limits"))
            (parseQueueStats (jGet fields "queue"))
            (parseQueuePosition (jGet fields "queuePosition")))
        | _ => none
      else if t == "error" then
        match jGet fields "message" with
        | some (.str msg) => some (.error msg)
        | _ => none
      else if t == "result" then
        some (.result (jGet fields "data"))
      else none
    | _ => none
  | _ => none

/-! ## `normalizeAnalysisResult` — `lib/analysisContract.ts` lines 226–262 -/

/-- The normalized user sub-record. -/
structure AnalysisUser : Type where
  game_name : String
  tag_line : String
  region : String
  profile_icon_id : ℚ
  summoner_level : ℚ
  puuid : String
  deriving Repr

/-- The fully-populated analysis result (`lib/analysisContract.ts` lines
205–224). Fields the TS type leaves as `unknown` are kept as `JValue`. -/
structure AnalysisResult : Type where
  status : String
  user : AnalysisUser
  metrics : JValue
  win_probability : ℚ
  win_rate : ℚ
  total_matches : ℚ
  player_moods : List JValue
  weighted_averages : JValue
  last_match_stats : JValue
  enemy_stats : JValue
  win_drivers : List JValue
  skill_focus : List JValue
  match_timeline_series : JValue
  performance_trends : List JValue
  territory_metrics : JValue
  ranked_data : JValue
  ddragon_version : String
  heatmap_data : Option JValue
  deriving Repr

/-- `toNum(v, fallback)` (lib/analysisContract.ts lines 226–229). -/
def toNum (v : Option JValue) (fallback : ℚ) : ℚ :=
  match jsToNumberOpt v with
  | some n => n
  | none => fallback

/-- The fields of `raw` when it passes `raw && typeof raw === 'object'`,
else the empty object. A JS array passes the check but has no string keys. -/
def jFields : Option JValue → List (String × JValue)
  | some (.obj fs) => fs
  | _ => []

/-- `typeof v === 'string' ? v : fallback`. -/
def jStrOr (v : Option JValue) (fallback : String) : String :=
  match v with
  | some (.str s) => s
  | _ => fallback

/-- `Array.isArray(v) ? v : []`. -/
def jArrOr : Option JValue → List JValue
  | some (.arr xs) => xs
  | _ => []

/-- `(v && typeof v === 'object') ? v : \x7b\x7d` (JS arrays pass the check). -/
def jObjOrEmpty : Option JValue → JValue
  | some (.obj fs) => .obj fs
  | some (.arr xs) => .arr xs
  | _ => .obj []

/-- `(v && typeof v === 'object') ? v : null` (JS arrays pass the check). -/
def jObjOrNone : Option JValue → Option JValue
  | some (.obj fs) => some (.obj fs)
  | some (.arr xs) => some (.arr xs)
  | _ => none

/-- `v ?? \x7b\x7d` (nullish coalescing to an empty object). -/
def jOrEmptyObj : Option JValue → JValue
  | none => .obj []
  | some .null => .obj []
  | some v => v

/-- `normalizeAnalysisResult(raw)` (lib/analysisContract.ts lines 231–262):
total on every input; every field is defaulted when missing or mistyped. -/
def normalizeAnalysisResult (raw : Option JValue) : AnalysisResult :=
  let data := jFields raw
  let user := jFields (jGet data "user")
  { status := jStrOr (jGet data "status") "unknown",
    user := {
      game_name := jStrOr (jGet user "game_name") "",
      tag_line := jStrOr (jGet user "tag_line") "",
      region := jStrOr (jGet user "region") "",
      profile_icon_id := toNum (jGet user "profile_icon_id") 0,
      summoner_level := toNum (jGet user "summoner_level") 0,
      puuid := jStrOr (jGet user "puuid") "" },
    metrics := jOrEmptyObj (jGet data "metrics"),
    win_probability := toNum (jGet data "win_probability") 50,
    win_rate := toNum (jGet data "win_rate") 0,
    total_matches := toNum (jGet data "total_matches") 0,
    player_moods := jArrOr (jGet data "player_moods"),
    weighted_averages := jObjOrEmpty (jGet data "weighted_averages"),
    last_match_stats := jObjOrEmpty (jGet data "last_match_stats"),
    enemy_stats := jObjOrEmpty (jGet data "enemy_stats"),
    win_drivers := jArrOr (jGet data "win_drivers"),
    skill_focus := jArrOr (jGet data "skill_focus"),
    match_timeline_series := jOrEmptyObj (jGet data "match_timeline_series"),
    performance_trends := jArrOr (jGet data "performance_trends"),
    territory_metrics := jOrEmptyObj (jGet data "territory_metrics"),
    ranked_data := (jGet data "ranked_data").getD .null,
    ddragon_version := jStrOr (jGet data "ddragon_version") "14.24.1",
    heatmap_data := jObjOrNone (jGet data "heatmap_data") }

/-! ## The `analyzeStats` stream loop — `lib/api.ts` lines 100–149

The reader loop splits the byte stream into newline-terminated lines and a
final leftover buffer. We model the sequence of complete lines as a
`List (Option JValue)` of their `JSON.parse` outcomes and the leftover
buffer as one more `Option JValue` (`none` covers both an empty and an
unparseable leftover; both fall through identically in the source). -/

/-- The outcome of `analyzeStats`: the resolved result or the message of the
thrown `Error`. -/
inductive StreamOutcome : Type where
  | ok (result : AnalysisResult)
  | err (message : String)
  deriving Repr

/-- The exact message thrown when the stream ends without a result. -/
def streamEndedMessage : String := "Stream ended without receiving analysis result"

/-- The stream loop of `analyzeStats`: the first `result` event resolves
with the normalized data (later lines are never examined), the first
`error` event rejects with the server message, all other lines (progress,
invalid JSON, unknown types) continue the loop, and the leftover buffer is
consulted for a final `result` or `error` before the fallback rejection. -/
def runStream : List (Option JValue) → Option JValue → StreamOutcome
  | [], leftover =>
    match parseAnalyzeEvent leftover with
    | some (.result d) => .ok (normalizeAnalysisResult d)
    | some (.error m) => .err m
    | _ => .err streamEndedMessage
  | l :: rest, leftover =>
    match parseAnalyzeEvent l with
    | some (.result d) => .ok (normalizeAnalysisResult d)
    | some (.error m) => .err m
    | _ => runStream rest leftover

/-- A line whose parsed event terminates the loop (`result` or `error`). -/
def isTerminal (l : Option JValue) : Bool :=
  match parseAnalyzeEvent l with
  | some (.result _) => true
  | some (.error _) => true
  | _ => false

/-! ## Feature extraction ratios

Modelled from the spec: `ml/pipeline.py` is not among the available
sources (only its documentation `stats_overview.md` is); definitions follow
spec section 4.1 and `stats_overview.md` section 2.1. -/

/-- Modelled from the spec: the sum of ability-cast counts restricted to
the abilities flagged as skillshots for the champion (the Q/W/E/R cast
counts zipped with the champion flags from `lol_skillshots.json`). -/
def qualifyingCasts (casts : List ℕ) (isSkillshot : List Bool) : ℕ :=
  (casts.zip isSkillshot).foldl (fun a p => if p.2 then a + p.1 else a) 0

/-- Modelled from the spec: `skillshotHitRate = hits / casts * 100` capped
at 100, and 0 when the qualifying-cast denominator is 0 (ml/pipeline.py is
not under the available sources). -/
def skillshotHitRate (hits : ℕ) (casts : List ℕ) (isSkillshot : List Bool) : ℚ :=
  let q := qualifyingCasts casts isSkillshot
  if q = 0 then 0 else min 100 ((hits : ℚ) / (q : ℚ) * 100)

/-- Modelled from the spec: `skillshotDodgeRate = dodges / (sum of enemy
skillshot casts) * 100`, same capping and zero-denominator policy. -/
def skillshotDodgeRate (dodges : ℕ) (enemyCasts : List ℕ) (enemyIsSkillshot : List Bool) : ℚ :=
  let q := qualifyingCasts enemyCasts enemyIsSkillshot
  if q = 0 then 0 else min 100 ((dodges : ℚ) / (q : ℚ) * 100)

/-- Modelled from the spec: the goldPerMinute feature with fallback — the
source challenge value passes through unless it is missing or exactly
zero, in which case `goldEarned / (gameDuration / 60)` is recomputed. -/
def goldPerMinuteFeature (source : Option ℚ) (goldEarned gameDurationSeconds : ℚ) : ℚ :=
  match source with
  | some v => if v = 0 then goldEarned / (gameDurationSeconds / 60) else v
  | none => goldEarned / (gameDurationSeconds / 60)

/-! ## Consistency score

The training-window consistency score lives in `ml/training.py`, which is
not among the available sources; `consistencyScore` is modelled from the
spec (section 4.4) and `stats_overview.md` section 2.6. The rolling chart
consistency is embedded from the source `PlayerPerformanceTrends`
component. Means, variances and `Math.sqrt` are modelled over the reals. -/

/-- Arithmetic mean of a list of reals (0 for the empty list). -/
noncomputable def listMean (xs : List ℝ) : ℝ := xs.sum / xs.length

/-- Population variance of a list of reals. -/
noncomputable def listVariance (xs : List ℝ) : ℝ :=
  ((xs.map (fun x => (x - listMean xs) ^ 2)).sum) / xs.length

/-- Population standard deviation. -/
noncomputable def listStd (xs : List ℝ) : ℝ := Real.sqrt (listVariance xs)

/-- Modelled from the spec: `consistency_score` of `ml/training.py` —
`(1 - (std(goldPerMinute) / mean(goldPerMinute)) * 2) * 100`, clamped to
`[0, 100]`, over the goldPerMinute values of the training window. -/
noncomputable def consistencyScore (gpm : List ℝ) : ℝ :=
  min 100 (max 0 ((1 - listStd gpm / listMean gpm * 2) * 100))

/-- The per-point consistency of the trends chart
(`PlayerPerformanceTrends`, part_000 lines 43–52): over the oldest-first
series of coerced goldPerMinute values, take the window
`slice(max(0, idx - 4), idx + 1)` (the last up-to-5 games including the
current one), its population standard deviation and coefficient of
variation, and return `Math.max(0, 100 - cv * 1000)`. -/
noncomputable def chartConsistency (goldPerMin : List ℝ) (idx : ℕ) : ℝ :=
  let window := (goldPerMin.drop (idx - 4)).take (idx + 1 - (idx - 4))
  let mean := window.foldl (· + ·) (0 : ℝ) / window.length
  let variance := window.foldl (fun a b => a + (b - mean) ^ 2) (0 : ℝ) / window.length
  let stdDev := Real.sqrt variance
  let cv := if mean > 0 then stdDev / mean else 0
  max 0 (100 - cv * 1000)

/-! ## Timeline analyzer

Modelled from the spec: `ml/timeline_analysis.py` is not among the
available sources; definitions follow spec section 4.2. The map-geometry
constants are pinned reference values (spec section 9 treats them as
configuration constants); none of the verified properties depend on them. -/

/-- Modelled from the spec: the fixed midpoint of the map coordinate space. -/
def mapCenter : ℚ := 14870

/-- Modelled from the spec: the fixed enemy-jungle X-threshold. -/
def enemyJungleXThreshold : ℚ := 10000

/-- Modelled from the spec: frames within this distance of the river
diagonal count as river control. -/
def riverDiagonalTolerance : ℚ := 2500

/-- Team affiliation (100 = blue, 200 = red in the raw data). -/
inductive Team : Type where
  | blue
  | red
  deriving DecidableEq, Repr

/-- One participant frame of the match timeline (one per ~60s tick). -/
structure TimelineFrame : Type where
  x : ℚ
  y : ℚ
  timestamp : ℚ
  totalGold : ℚ
  xp : ℚ
  deriving DecidableEq, Repr

/-- Modelled from the spec: blue is in enemy territory when
`x + y > mapCenter + 1000`, red when `x + y < mapCenter - 1000`. -/
def inEnemyTerritory (team : Team) (f : TimelineFrame) : Bool :=
  match team with
  | .blue => decide (f.x + f.y > mapCenter + 1000)
  | .red => decide (f.x + f.y < mapCenter - 1000)

/-- Modelled from the spec: past the team-relative enemy-jungle
X-threshold. -/
def inEnemyJungle (team : Team) (f : TimelineFrame) : Bool :=
  match team with
  | .blue => decide (f.x > enemyJungleXThreshold)
  | .red => decide (f.x < mapCenter - enemyJungleXThreshold)

/-- Modelled from the spec: within 2500 units of the river diagonal
(the anti-diagonal `x + y = mapCenter`, measured along the
coordinate-sum axis consistently with the territory metric). -/
def inRiver (f : TimelineFrame) : Bool :=
  decide (|f.x + f.y - mapCenter| ≤ riverDiagonalTolerance)

/-- Fraction of frames satisfying a predicate, as a percentage. -/
def framePct (frames : List TimelineFrame) (p : TimelineFrame → Bool) : ℚ :=
  ((frames.countP p : ℚ) / (frames.length : ℚ)) * 100

/-- Modelled from the spec: signed forward distance from the map centre
(positive towards the enemy side). -/
def forwardDistance (team : Team) (f : TimelineFrame) : ℚ :=
  match team with
  | .blue => f.x + f.y - mapCenter
  | .red => mapCenter - (f.x + f.y)

/-- Modelled from the spec: mean signed forward distance normalized to
`[0, 100]` with fixed bounds (`±mapCenter`), so scores are comparable
across matches. -/
def forwardPositioningScore (team : Team) (frames : List TimelineFrame) : ℚ :=
  let meanForward := (frames.map (forwardDistance team)).sum / (frames.length : ℚ)
  min 100 (max 0 ((meanForward / mapCenter + 1) * 50))

/-- The territorial summary; `none` is the explicit unavailable sentinel. -/
structure TerritorialSummary : Type where
  time_in_enemy_territory_pct : Option ℚ
  jungle_invasion_pct : Option ℚ
  river_control_pct : Option ℚ
  forward_positioning_score : Option ℚ
  deriving DecidableEq, Repr

/-- Modelled from the spec: the Timeline Analyzer output for one
participant — every metric is the unavailable sentinel for a series of
fewer than 2 frames, and the documented percentages otherwise. -/
def analyzeTimeline (team : Team) (frames : List TimelineFrame) : TerritorialSummary :=
  if frames.length < 2 then
    { time_in_enemy_territory_pct := none, jungle_invasion_pct := none,
      river_control_pct := none, forward_positioning_score := none }
  else
    { time_in_enemy_territory_pct := some (framePct frames (inEnemyTerritory team)),
      jungle_invasion_pct := some (framePct frames (inEnemyJungle team)),
      river_control_pct := some (framePct frames inRiver),
      forward_positioning_score := some (forwardPositioningScore team frames) }

/-- The frame of `xs` whose timestamp is nearest to `t` (first wins ties). -/
def nearestBy {α : Type} (ts : α → ℚ) (t : ℚ) (xs : List α) : Option α :=
  xs.foldl (fun best f =>
    match best with
    | none => some f
    | some b => if |ts f - t| < |ts b - t| then some f else some b) none

/-- Modelled from the spec: the per-frame lane deltas against the
identified lane opponent, bucketing by nearest timestamp (frame counts may
differ by sampling jitter); the whole series is the unavailable sentinel
for a participant with fewer than 2 frames. Frames with no opposing frame
at all are dropped rather than defaulted. -/
def laneDeltaSeries (mine opp : List TimelineFrame) : Option (List (ℚ × ℚ)) :=
  if mine.length < 2 then none
  else some (mine.filterMap (fun f =>
    (nearestBy TimelineFrame.timestamp f.timestamp opp).map
      (fun o => (f.totalGold - o.totalGold, f.xp - o.xp))))

/-- Modelled from the spec: the per-frame gold delta against the mean
cumulative gold of all ten participants at the nearest timestamp bucket;
unavailable for fewer than 2 frames. -/
def meanGoldDeltaSeries (mine : List TimelineFrame)
    (participants : List (List TimelineFrame)) : Option (List ℚ) :=
  if mine.length < 2 then none
  else some (mine.map (fun f =>
    let golds := participants.filterMap
      (fun ps => (nearestBy TimelineFrame.timestamp f.timestamp ps).map TimelineFrame.totalGold)
    f.totalGold - golds.sum / (golds.length : ℚ)))

/-! ## Cross-match aggregator

Modelled from the spec: `routers/analysis.py` is not among the available
sources; definitions follow spec section 4.3 and `stats_overview.md`
section 2.5. -/

/-- One per-match lane-delta sample at a timeline frame. -/
structure LaneDeltaFrame : Type where
  timestamp : ℚ
  laneGoldDelta : ℚ
  laneXpDelta : ℚ
  deriving DecidableEq, Repr

/-- Minute 14 in milliseconds. -/
def minute14Ms : ℚ := 840000

/-- Modelled from the spec: the tolerance window around minute 14 within
which the nearest frame may be used (a pinned reference constant; the
verified properties do not depend on its value). -/
def frameToleranceMs : ℚ := 60000

/-- Modelled from the spec: the lane deltas of the frame nearest to minute
14, or `none` when no frame lies within the tolerance window (the match is
then excluded, never extrapolated). -/
def laneLeadAt14 (frames : List LaneDeltaFrame) : Option (ℚ × ℚ) :=
  match nearestBy LaneDeltaFrame.timestamp minute14Ms frames with
  | none => none
  | some f =>
    if |f.timestamp - minute14Ms| ≤ frameToleranceMs then
      some (f.laneGoldDelta, f.laneXpDelta)
    else none

/-- The cross-match aggregate; `none` is the unavailable sentinel. -/
structure AggregatedLaneLead : Type where
  laneGoldLeadAt14 : Option ℚ
  laneXpLeadAt14 : Option ℚ
  laneLeadSampleSize : ℕ
  deriving DecidableEq, Repr

/-- Modelled from the spec: the Cross-Match Aggregator — the arithmetic
mean of the included matches' minute-14 lane deltas, with the sample size
tracked and the aggregate unavailable (not 0) when no match qualifies. -/
def aggregateLaneLead (ms : List (List LaneDeltaFrame)) : AggregatedLaneLead :=
  let included := ms.filterMap laneLeadAt14
  { laneGoldLeadAt14 :=
      if included.isEmpty then none
      else some ((included.map Prod.fst).sum / (included.length : ℚ)),
    laneXpLeadAt14 :=
      if included.isEmpty then none
      else some ((included.map Prod.snd).sum / (included.length : ℚ)),
    laneLeadSampleSize := included.length }

/-! ## Training engine guards and training cache

Modelled from the spec: `ml/training.py` is not among the available
sources; definitions follow spec sections 4.4, 4.5 and 7. The classifier
fitting itself is outside the verified claims; the produced model data
retains the recency-weighted training set the spec mandates. -/

/-- The fatal training errors of spec section 7. -/
inductive TrainError : Type where
  | insufficientData
  | degenerateLabel
  deriving DecidableEq, Repr

/-- One labeled feature record of the training history. -/
structure LabeledMatch : Type where
  features : List ℚ
  win : Bool
  deriving DecidableEq, Repr

/-- Modelled from the spec: the enforced minimum viable sample count
(training with fewer than 10 labeled matches is rejected). -/
def minViableSamples : ℕ := 10

/-- Modelled from the spec: the discrete three-tier recency weight for
index `i` (0 = oldest) in a history of length `n` — oldest third 1, middle
third 2, most-recent third 4. -/
def recencyWeight (n i : ℕ) : ℕ :=
  if 3 * (i + 1) ≤ n then 1 else if 3 * (i + 1) ≤ 2 * n then 2 else 4

/-- The data of a trained model that the cache stores; it carries the
recency-weighted training samples. -/
structure TrainedModelData : Type where
  weightedSamples : List (LabeledMatch × ℕ)
  deriving DecidableEq, Repr

/-- Modelled from the spec: the Training Engine entry point — rejects a
history below the sample floor with `InsufficientDataError` and a
single-class history with `DegenerateLabelError`; no model is produced in
either case. -/
def trainModel (history : List LabeledMatch) : Except TrainError TrainedModelData :=
  if history.length < minViableSamples then
    .error .insufficientData
  else if history.all (·.win) || history.all (fun r => !r.win) then
    .error .degenerateLabel
  else
    .ok { weightedSamples :=
            history.mapIdx (fun i r => (r, recencyWeight history.length i)) }

/-- Modelled from the spec: the content hash of the training-input set —
order-independent (a commutative fold of per-record encodings), so the
hash depends only on the set of records and labels. -/
def encodeRecord (r : LabeledMatch) : ℕ :=
  (if r.win then 1 else 0) + 2 * r.features.foldl (fun a q => a + q.num.natAbs + q.den) 0

/-- Modelled from the spec: content hash as the sum of record encodings. -/
def contentHash (rs : List LabeledMatch) : ℕ :=
  rs.foldl (fun a r => a + encodeRecord r) 0

/-- The training cache state: per-player entries of (player id, content
hash, model) plus a counter of Training Engine invocations (the spec asks
to count engine calls to observe cache hits). -/
structure TrainingCache (α : Type) : Type where
  entries : List (String × ℕ × α)
  engineCalls : ℕ

/-- Modelled from the spec: the cache-wrapped training entry point — a hit
(same player, same content hash) returns the stored model unchanged
without invoking the engine; a miss or stale hash trains fresh, stores the
result and evicts any prior entry for that player. The engine is a
parameter so invocations can be counted for any engine. -/
def getOrTrain {α : Type} (engine : List LabeledMatch → α) (c : TrainingCache α)
    (pid : String) (rs : List LabeledMatch) : α × TrainingCache α :=
  let h := contentHash rs
  match c.entries.find? (fun e => e.1 == pid) with
  | some (_, h0, m) =>
    if h0 = h then (m, c)
    else
      let m := engine rs
      (m, ⟨(pid, h, m) :: c.entries.filter (fun e => e.1 != pid), c.engineCalls + 1⟩)
  | none =>
    let m := engine rs
    (m, ⟨(pid, h, m) :: c.entries.filter (fun e => e.1 != pid), c.engineCalls + 1⟩)

/-! ## Helper lemmas -/

theorem capped_ratio_bounds (n q : ℕ) :
    0 ≤ min (100 : ℚ) ((n : ℚ) / (q : ℚ) * 100) ∧
      min (100 : ℚ) ((n : ℚ) / (q : ℚ) * 100) ≤ 100 := by
  refine ⟨le_min (by norm_num) (by positivity), min_le_left _ _⟩

/-! ## Claim theorems -/

/-- C1: for every participant record, skillshotHitRate equals
skillshotsHit divided by the sum of ability-cast counts of abilities
flagged as skillshots, times 100, capped at 100; when the qualifying-cast
denominator is 0 the rate is 0 rather than a division error; hence the
rate (and likewise skillshotDodgeRate over enemy skillshot casts) always
lies in [0, 100]. -/
theorem skillshot_rate_spec (hits dodges : ℕ) (casts eCasts : List ℕ)
    (flags eFlags : List Bool) :
    (qualifyingCasts casts flags = 0 → skillshotHitRate hits casts flags = 0) ∧
    (qualifyingCasts casts flags ≠ 0 →
      skillshotHitRate hits casts flags =
        min 100 ((hits : ℚ) / (qualifyingCasts casts flags : ℚ) * 100)) ∧
    (0 ≤ skillshotHitRate hits casts flags ∧ skillshotHitRate hits casts flags ≤ 100) ∧
    (qualifyingCasts eCasts eFlags = 0 → skillshotDodgeRate dodges eCasts eFlags = 0) ∧
    (qualifyingCasts eCasts eFlags ≠ 0 →
      skillshotDodgeRate dodges eCasts eFlags =
        min 100 ((dodges : ℚ) / (qualifyingCasts eCasts eFlags : ℚ) * 100)) ∧
    (0 ≤ skillshotDodgeRate dodges eCasts eFlags ∧
      skillshotDodgeRate dodges eCasts eFlags ≤ 100) := by
  refine ⟨fun h => by simp [skillshotHitRate, h],
    fun h => by simp [skillshotHitRate, h],
    ?_,
    fun h => by simp [skillshotDodgeRate, h],
    fun h => by simp [skillshotDodgeRate, h],
    ?_⟩
  · unfold skillshotHitRate
    by_cases h : qualifyingCasts casts flags = 0
    · simp [h]
    · simpa [h] using capped_ratio_bounds hits (qualifyingCasts casts flags)
  · unfold skillshotDodgeRate
    by_cases h : qualifyingCasts eCasts eFlags = 0
    · simp [h]
    · simpa [h] using capped_ratio_bounds dodges (qualifyingCasts eCasts eFlags)

/-- Witness for C1: the concrete scenario skillshotsHit = 6 with 5
qualifying casts is capped at 100, and a zero denominator yields 0. -/
theorem skillshot_rate_spec_witness :
    skillshotHitRate 6 [5, 0, 0, 0] [true, false, false, false] = 100 ∧
    skillshotDodgeRate 3 [0, 0, 0, 0] [true, true, true, true] = 0 := by
  have h := skillshot_rate_spec 6 3 [5, 0, 0, 0] [0, 0, 0, 0]
    [true, false, false, false] [true, true, true, true]
  refine ⟨?_, h.2.2.2.1 (by decide)⟩
  rw [h.2.1 (by decide)]
  norm_num [qualifyingCasts]

/-- C2: the goldPerMinute fallback (goldEarned over duration in minutes)
is applied iff the source challenge value is missing or exactly 0; a
nonzero source value passes through unchanged. -/
theorem goldPerMinute_fallback_spec (source : Option ℚ) (goldEarned dur : ℚ) :
    ((source = none ∨ source = some 0) →
      goldPerMinuteFeature source goldEarned dur = goldEarned / (dur / 60)) ∧
    (∀ v, source = some v → v ≠ 0 → goldPerMinuteFeature source goldEarned dur = v) := by
  constructor
  · rintro (rfl | rfl) <;> simp [goldPerMinuteFeature]
  · rintro v rfl hv
    simp [goldPerMinuteFeature, hv]

/-- Witness for C2: goldEarned 15000 over 1800 seconds with a source value
of exactly 0 falls back to 500. -/
theorem goldPerMinute_fallback_spec_witness :
    goldPerMinuteFeature (some 0) 15000 1800 = 500 := by
  rw [(goldPerMinute_fallback_spec (some 0) 15000 1800).1 (Or.inr rfl)]
  norm_num

/-- C6: a training attempt on a history below the minimum viable sample
count fails with InsufficientDataError, and a single-class history of
sufficient size fails with DegenerateLabelError; in neither case is a
model produced. -/
theorem training_guards_spec (history : List LabeledMatch) :
    (history.length < minViableSamples →
      trainModel history = .error .insufficientData) ∧
    (minViableSamples ≤ history.length → history.all (·.win) = true →
      trainModel history = .error .degenerateLabel) ∧
    (minViableSamples ≤ history.length → history.all (fun r => !r.win) = true →
      trainModel history = .error .degenerateLabel) ∧
    ((history.length < minViableSamples ∨ history.all (·.win) = true ∨
        history.all (fun r => !r.win) = true) →
      ∀ m, trainModel history ≠ .ok m) := by
  refine ⟨fun h => by simp [trainModel, h], ?_, ?_, ?_⟩
  · intro hn hw
    simp [trainModel, Nat.not_lt.mpr hn, hw]
  · intro hn hl
    simp [trainModel, Nat.not_lt.mpr hn, hl]
  · rintro (h | h | h) m
    · simp [trainModel, h]
    · unfold trainModel
      by_cases hn : history.length < minViableSamples <;> simp [hn, h]
    · unfold trainModel
      by_cases hn : history.length < minViableSamples <;> simp [hn, h]

/-- Witness for C6: exactly 9 labeled matches fail with
InsufficientDataError, and 50 all-win matches fail with
DegenerateLabelError. -/
theorem training_guards_spec_witness :
    trainModel (List.replicate 9 ⟨[], true⟩) = .error .insufficientData ∧
    trainModel (List.replicate 50 ⟨[], true⟩) = .error .degenerateLabel :=
  ⟨(training_guards_spec _).1 (by decide),
   (training_guards_spec _).2.1 (by decide) (by decide)⟩

theorem getOrTrain_find {α : Type} (engine : List LabeledMatch → α)
    (c : TrainingCache α) (pid : String) (rs : List LabeledMatch) :
    ((getOrTrain engine c pid rs).2).entries.find? (fun e => e.1 == pid) =
      some (pid, contentHash rs, (getOrTrain engine c pid rs).1) := by
  unfold getOrTrain
  cases hfind : c.entries.find? (fun e => e.1 == pid) with
  | none =>
    simp [List.find?_cons_of_pos]
  | some e =>
    obtain ⟨p, h0, m⟩ := e
    have hp : p = pid := by
      have := List.find?_some hfind
      simpa using this
    subst hp
    by_cases hh : h0 = contentHash rs
    · subst hh
      simpa using hfind
    · simp [hh, List.find?_cons_of_pos]

theorem getOrTrain_hit {α : Type} (engine : List LabeledMatch → α)
    (c : TrainingCache α) (pid : String) (rs : List LabeledMatch) (m : α)
    (h : c.entries.find? (fun e => e.1 == pid) = some (pid, contentHash rs, m)) :
    getOrTrain engine c pid rs = (m, c) := by
  unfold getOrTrain
  rw [h]
  simp

theorem getOrTrain_stale {α : Type} (engine : List LabeledMatch → α)
    (c : TrainingCache α) (pid : String) (rs' : List LabeledMatch) (m : α) (h0 : ℕ)
    (hfind : c.entries.find? (fun e => e.1 == pid) = some (pid, h0, m))
    (hne : h0 ≠ contentHash rs') :
    (getOrTrain engine c pid rs').1 = engine rs' ∧
    ((getOrTrain engine c pid rs').2).engineCalls = c.engineCalls + 1 ∧
    ((getOrTrain engine c pid rs').2).entries.find? (fun e => e.1 == pid) =
      some (pid, contentHash rs', engine rs') := by
  unfold getOrTrain
  rw [hfind]
  simp [hne, List.find?_cons_of_pos]

/-- C7: two sequential training-cache calls with an unchanged input set
and identical player id return bit-identical model data on the second call
without re-invoking the Training Engine (the state, including the engine
invocation counter, is unchanged), while a call whose content hash differs
trains fresh, increments the engine counter and evicts the prior entry for
that player. -/
theorem training_cache_spec {α : Type} (engine : List LabeledMatch → α)
    (c : TrainingCache α) (pid : String) (rs : List LabeledMatch) :
    ((getOrTrain engine (getOrTrain engine c pid rs).2 pid rs).1 =
        (getOrTrain engine c pid rs).1 ∧
      (getOrTrain engine (getOrTrain engine c pid rs).2 pid rs).2 =
        (getOrTrain engine c pid rs).2) ∧
    (∀ rs', contentHash rs' ≠ contentHash rs →
      (getOrTrain engine (getOrTrain engine c pid rs).2 pid rs').1 = engine rs' ∧
      ((getOrTrain engine (getOrTrain engine c pid rs).2 pid rs').2).engineCalls =
        ((getOrTrain engine c pid rs).2).engineCalls + 1 ∧
      ((getOrTrain engine (getOrTrain engine c pid rs).2 pid rs').2).entries.find?
          (fun e => e.1 == pid) = some (pid, contentHash rs', engine rs')) := by
  have hfind := getOrTrain_find engine c pid rs
  constructor
  · rw [getOrTrain_hit engine _ pid rs _ hfind]
    exact ⟨rfl, rfl⟩
  · intro rs' hne
    exact getOrTrain_stale engine _ pid rs' _ _ hfind (Ne.symm hne)

/-- Witness for C7: with a counting engine, the second identical call
returns the first model and calls the engine no second time, while a
changed input set retrains and increments the invocation count. -/
theorem training_cache_spec_witness :
    (getOrTrain (fun rs => rs.length)
        ((getOrTrain (fun rs => rs.length) ⟨[], 0⟩ "p" [⟨[], true⟩]).2) "p"
        [⟨[], true⟩]).1 = 1 ∧
    ((getOrTrain (fun rs => rs.length)
        ((getOrTrain (fun rs => rs.length) ⟨[], 0⟩ "p" [⟨[], true⟩]).2) "p"
        []).2).engineCalls = 2 := by
  have h := training_cache_spec (fun rs => rs.length) ⟨[], 0⟩ "p" [⟨[], true⟩]
  constructor
  · rw [h.1.1]
    decide
  · rw [(h.2 [] (by decide)).2.1]
    decide

theorem framePct_bounds (frames : List TimelineFrame) (p : TimelineFrame → Bool)
    (h : frames ≠ []) : 0 ≤ framePct frames p ∧ framePct frames p ≤ 100 := by
  have hlen : 0 < (frames.length : ℚ) := by
    exact_mod_cast List.length_pos.mpr h
  constructor
  · unfold framePct
    positivity
  · unfold framePct
    have hc : ((frames.countP p : ℚ)) ≤ (frames.length : ℚ) := by
      exact_mod_cast List.countP_le_length p
    have h1 : (frames.countP p : ℚ) / (frames.length : ℚ) ≤ 1 :=
      (div_le_one hlen).mpr hc
    calc (frames.countP p : ℚ) / (frames.length : ℚ) * 100
        ≤ 1 * 100 := by
          exact mul_le_mul_of_nonneg_right h1 (by norm_num)
      _ = 100 := by norm_num

/-- C4: for every timeline frame series with at least 2 frames, the enemy
territory, jungle invasion and river control percentages all lie in
[0, 100]; for every series with fewer than 2 frames, all territorial and
per-frame delta metrics are the explicit unavailable sentinel, never
zero. -/
theorem territorial_metrics_spec (team : Team) (frames opp : List TimelineFrame)
    (participants : List (List TimelineFrame)) :
    (2 ≤ frames.length →
      (∃ q, (analyzeTimeline team frames).time_in_enemy_territory_pct = some q ∧
        0 ≤ q ∧ q ≤ 100) ∧
      (∃ q, (analyzeTimeline team frames).jungle_invasion_pct = some q ∧
        0 ≤ q ∧ q ≤ 100) ∧
      (∃ q, (analyzeTimeline team frames).river_control_pct = some q ∧
        0 ≤ q ∧ q ≤ 100)) ∧
    (frames.length < 2 →
      (analyzeTimeline team frames).time_in_enemy_territory_pct = none ∧
      (analyzeTimeline team frames).jungle_invasion_pct = none ∧
      (analyzeTimeline team frames).river_control_pct = none ∧
      (analyzeTimeline team frames).forward_positioning_score = none ∧
      laneDeltaSeries frames opp = none ∧
      meanGoldDeltaSeries frames participants = none) := by
  constructor
  · intro h2
    have hne : frames ≠ [] := by
      intro h
      simp [h] at h2
    have hnl : ¬ frames.length < 2 := by omega
    refine ⟨⟨framePct frames (inEnemyTerritory team), ?_, framePct_bounds frames _ hne⟩,
      ⟨framePct frames (inEnemyJungle team), ?_, framePct_bounds frames _ hne⟩,
      ⟨framePct frames inRiver, ?_, framePct_bounds frames _ hne⟩⟩ <;>
      simp [analyzeTimeline, hnl]
  · intro h2
    refine ⟨?_, ?_, ?_, ?_, ?_, ?_⟩ <;>
      simp [analyzeTimeline, laneDeltaSeries, meanGoldDeltaSeries, h2]

/-- Witness for C4: a two-frame series has an in-range enemy-territory
percentage, and a one-frame series reports the unavailable sentinel. -/
theorem territorial_metrics_spec_witness :
    (∃ q, (analyzeTimeline Team.blue
        [⟨0, 0, 0, 0, 0⟩, ⟨14000, 14000, 60000, 500, 400⟩]).time_in_enemy_territory_pct =
          some q ∧ 0 ≤ q ∧ q ≤ 100) ∧
    laneDeltaSeries [⟨0, 0, 0, 0, 0⟩] [] = none := by
  constructor
  · exact ((territorial_metrics_spec Team.blue
      [⟨0, 0, 0, 0, 0⟩, ⟨14000, 14000, 60000, 500, 400⟩] [] []).1 (by decide)).1
  · exact ((territorial_metrics_spec Team.blue [⟨0, 0, 0, 0, 0⟩] [] []).2
      (by decide)).2.2.2.2.1

theorem length_filterMap_eq_countP {α β : Type} (f : α → Option β) (l : List α) :
    (l.filterMap f).length = l.countP (fun x => (f x).isSome) := by
  induction l with
  | nil => rfl
  | cons a t ih =>
    cases h : f a <;>
      simp [List.filterMap_cons, h, List.countP_cons, ih]

/-- C5: for every set of up to 21 input matches, the aggregated lane-lead
sample size equals the count of matches having a timeline frame within
tolerance of minute 14, the aggregate equals the arithmetic mean of the
included matches deltas at that frame, and the aggregate is the
unavailable sentinel (not 0) iff the sample size is 0. -/
theorem lane_lead_aggregation_spec (ms : List (List LaneDeltaFrame))
    (hle : ms.length ≤ 21) :
    (aggregateLaneLead ms).laneLeadSampleSize =
      ms.countP (fun m => (laneLeadAt14 m).isSome) ∧
    ((aggregateLaneLead ms).laneGoldLeadAt14 = none ↔
      (aggregateLaneLead ms).laneLeadSampleSize = 0) ∧
    ((aggregateLaneLead ms).laneXpLeadAt14 = none ↔
      (aggregateLaneLead ms).laneLeadSampleSize = 0) ∧
    ((aggregateLaneLead ms).laneLeadSampleSize ≠ 0 →
      (aggregateLaneLead ms).laneGoldLeadAt14 =
        some (((ms.filterMap laneLeadAt14).map Prod.fst).sum /
          ((ms.filterMap laneLeadAt14).length : ℚ)) ∧
      (aggregateLaneLead ms).laneXpLeadAt14 =
        some (((ms.filterMap laneLeadAt14).map Prod.snd).sum /
          ((ms.filterMap laneLeadAt14).length : ℚ))) := by
  have hempty : (ms.filterMap laneLeadAt14).isEmpty = true ↔
      (ms.filterMap laneLeadAt14).length = 0 := by
    simp [List.isEmpty_iff_length_eq_zero]
  refine ⟨by simp [aggregateLaneLead, length_filterMap_eq_countP], ?_, ?_, ?_⟩
  · by_cases he : (ms.filterMap laneLeadAt14).isEmpty
    · simp [aggregateLaneLead, he, hempty.mp he]
    · have hlen : (ms.filterMap laneLeadAt14).length ≠ 0 :=
        fun h => he (hempty.mpr h)
      simp [aggregateLaneLead, he, hlen]
  · by_cases he : (ms.filterMap laneLeadAt14).isEmpty
    · simp [aggregateLaneLead, he, hempty.mp he]
    · have hlen : (ms.filterMap laneLeadAt14).length ≠ 0 :=
        fun h => he (hempty.mpr h)
      simp [aggregateLaneLead, he, hlen]
  · intro hne0
    have hlen : (ms.filterMap laneLeadAt14).length ≠ 0 := by
      simpa [aggregateLaneLead] using hne0
    have he : (ms.filterMap laneLeadAt14).isEmpty = false := by
      rw [Bool.eq_false_iff]
      intro h
      exact hlen (hempty.mp h)
    constructor <;> simp [aggregateLaneLead, he]

/-- Witness for C5: one match with a frame exactly at minute 14 and one
with no frames gives sample size 1 and the mean of the single included
delta; a single empty match gives the unavailable sentinel. -/
theorem lane_lead_aggregation_spec_witness :
    (aggregateLaneLead [[⟨840000, 100, 50⟩], []]).laneGoldLeadAt14 = some 100 ∧
    (aggregateLaneLead [[]]).laneGoldLeadAt14 = none := by
  have hlead : laneLeadAt14 [⟨840000, 100, 50⟩] = some (100, 50) := by
    norm_num [laneLeadAt14, nearestBy, minute14Ms, frameToleranceMs]
  have hnil : laneLeadAt14 ([] : List LaneDeltaFrame) = none := by
    simp [laneLeadAt14, nearestBy]
  have hmap : [[(⟨840000, 100, 50⟩ : LaneDeltaFrame)], []].filterMap laneLeadAt14 =
      [(100, 50)] := by
    simp [List.filterMap_cons, hlead, hnil]
  constructor
  · have h := ((lane_lead_aggregation_spec [[⟨840000, 100, 50⟩], []]
      (by norm_num)).2.2.2 (by simp [aggregateLaneLead, hmap])).1
    rw [h, hmap]
    norm_num
  · exact (lane_lead_aggregation_spec [[]] (by norm_num)).2.1.mpr
      (by simp [aggregateLaneLead, laneLeadAt14, nearestBy])

theorem clampPercent_nonneg (v : Option JValue) : 0 ≤ clampPercent v := by
  rcases hv : jsToNumberOpt v with _ | q <;> simp [clampPercent, hv]

theorem clampPercent_le_100 (v : Option JValue) : clampPercent v ≤ 100 := by
  rcases hv : jsToNumberOpt v with _ | q <;> simp [clampPercent, hv]

theorem parse_progress_percent (line : Option JValue) (msg : String) (pct : ℤ)
    (stage : Option String) (limits : Option RiotApiLimits) (queue : Option QueueStats)
    (qpos : Option ℤ)
    (h : parseAnalyzeEvent line = some (.progress msg pct stage limits queue qpos)) :
    ∃ w, pct = clampPercent w := by
  match line with
  | none => simp [parseAnalyzeEvent] at h
  | some .null => simp [parseAnalyzeEvent] at h
  | some (.bool b) => simp [parseAnalyzeEvent] at h
  | some (.num q) => simp [parseAnalyzeEvent] at h
  | some (.str s) => simp [parseAnalyzeEvent] at h
  | some (.arr xs) => simp [parseAnalyzeEvent] at h
  | some (.obj fields) =>
    simp only [parseAnalyzeEvent] at h
    split at h
    · split at h
      · split at h
        · rename_i heq
          obtain ⟨-, hpct, -⟩ := Option.some.inj h |> AnalyzeStreamEvent.progress.inj
          exact ⟨jGet fields "percent", hpct.symm⟩
        · exact absurd h (by simp)
      · split at h
        · split at h
          · exact absurd h (by simp)
          · exact absurd h (by simp)
        · split at h
          · exact absurd h (by simp)
          · exact absurd h (by simp)
    · exact absurd h (by simp)

/-- C8: every value passed through clampPercent yields an integer in
[0, 100]: non-finite coercions map to 0 and all other inputs are rounded
and clamped; consequently every parsed progress event carries a percent in
[0, 100]. -/
theorem clampPercent_spec :
    (∀ v : Option JValue,
      0 ≤ clampPercent v ∧ clampPercent v ≤ 100 ∧
      (jsToNumberOpt v = none → clampPercent v = 0) ∧
      (∀ q, jsToNumberOpt v = some q →
        clampPercent v = max 0 (min 100 (round q)))) ∧
    (∀ (line : Option JValue) (msg : String) (pct : ℤ) (stage : Option String)
        (limits : Option RiotApiLimits) (queue : Option QueueStats)
        (qpos : Option ℤ),
      parseAnalyzeEvent line = some (.progress msg pct stage limits queue qpos) →
      0 ≤ pct ∧ pct ≤ 100) := by
  constructor
  · intro v
    exact ⟨clampPercent_nonneg v, clampPercent_le_100 v,
      fun h => by simp [clampPercent, h],
      fun q h => by simp [clampPercent, h]⟩
  · intro line msg pct stage limits queue qpos h
    obtain ⟨w, hw⟩ := parse_progress_percent line msg pct stage limits queue qpos h
    rw [hw]
    exact ⟨clampPercent_nonneg w, clampPercent_le_100 w⟩

/-- Witness for C8: an out-of-range numeric percent is clamped to 100 and
a non-numeric value maps to 0. -/
theorem clampPercent_spec_witness :
    clampPercent (some (.num 250)) = 100 ∧ clampPercent (some (.obj [])) = 0 := by
  constructor
  · rw [(clampPercent_spec.1 (some (.num 250))).2.2.2 250 rfl]
    norm_num [round_eq]
  · exact (clampPercent_spec.1 (some (.obj []))).2.2.1 rfl

theorem jStrOr_eq_fallback (v : Option JValue) (fb : String)
    (h : ∀ s, v ≠ some (.str s)) : jStrOr v fb = fb := by
  cases v with
  | none => rfl
  | some x => cases x <;> first | rfl | exact absurd rfl (h _)

/-- C10: normalizeAnalysisResult is total on every input, including
non-objects and mistyped fields; win_probability defaults to 50 when
missing or non-numeric and passes numeric values through, win_rate and
total_matches default to 0, status defaults to "unknown" and
ddragon_version to "14.24.1". -/
theorem normalizeAnalysisResult_spec (raw : Option JValue) :
    (jFields raw = [] → normalizeAnalysisResult raw = normalizeAnalysisResult none) ∧
    (jsToNumberOpt (jGet (jFields raw) "win_probability") = none →
      (normalizeAnalysisResult raw).win_probability = 50) ∧
    (∀ q, jsToNumberOpt (jGet (jFields raw) "win_probability") = some q →
      (normalizeAnalysisResult raw).win_probability = q) ∧
    (jsToNumberOpt (jGet (jFields raw) "win_rate") = none →
      (normalizeAnalysisResult raw).win_rate = 0) ∧
    (∀ q, jsToNumberOpt (jGet (jFields raw) "win_rate") = some q →
      (normalizeAnalysisResult raw).win_rate = q) ∧
    (jsToNumberOpt (jGet (jFields raw) "total_matches") = none →
      (normalizeAnalysisResult raw).total_matches = 0) ∧
    (∀ q, jsToNumberOpt (jGet (jFields raw) "total_matches") = some q →
      (normalizeAnalysisResult raw).total_matches = q) ∧
    ((∀ s, jGet (jFields raw) "status" ≠ some (.str s)) →
      (normalizeAnalysisResult raw).status = "unknown") ∧
    (∀ s, jGet (jFields raw) "status" = some (.str s) →
      (normalizeAnalysisResult raw).status = s) ∧
    ((∀ s, jGet (jFields raw) "ddragon_version" ≠ some (.str s)) →
      (normalizeAnalysisResult raw).ddragon_version = "14.24.1") ∧
    (∀ s, jGet (jFields raw) "ddragon_version" = some (.str s) →
      (normalizeAnalysisResult raw).ddragon_version = s) := by
  refine ⟨?_, ?_, ?_, ?_, ?_, ?_, ?_, ?_, ?_, ?_, ?_⟩
  · intro h
    simp only [normalizeAnalysisResult, h]
    rfl
  · intro h
    simp [normalizeAnalysisResult, toNum, h]
  · intro q h
    simp [normalizeAnalysisResult, toNum, h]
  · intro h
    simp [normalizeAnalysisResult, toNum, h]
  · intro q h
    simp [normalizeAnalysisResult, toNum, h]
  · intro h
    simp [normalizeAnalysisResult, toNum, h]
  · intro q h
    simp [normalizeAnalysisResult, toNum, h]
  · intro h
    simp only [normalizeAnalysisResult]
    exact jStrOr_eq_fallback _ _ h
  · intro s h
    simp [normalizeAnalysisResult, jStrOr, h]
  · intro h
    simp only [normalizeAnalysisResult]
    exact jStrOr_eq_fallback _ _ h
  · intro s h
    simp [normalizeAnalysisResult, jStrOr, h]

/-- Witness for C10: a boolean win_probability coerces to 1 and passes
through; a non-object input yields the default 50. -/
theorem normalizeAnalysisResult_spec_witness :
    (normalizeAnalysisResult
      (some (.obj [("win_probability", .bool true)]))).win_probability = 1 ∧
    (normalizeAnalysisResult (some (.num 7))).win_probability = 50 := by
  constructor
  · exact (normalizeAnalysisResult_spec
      (some (.obj [("win_probability", .bool true)]))).2.2.1 1 rfl
  · exact (normalizeAnalysisResult_spec (some (.num 7))).2.1 rfl

theorem runStream_skip (l : Option JValue) (rest : List (Option JValue))
    (leftover : Option JValue) (h : isTerminal l = false) :
    runStream (l :: rest) leftover = runStream rest leftover := by
  unfold isTerminal at h
  rcases hp : parseAnalyzeEvent l with _ | ev
  · simp [runStream, hp]
  · rw [hp] at h
    cases ev with
    | progress m p s li q qp => simp [runStream, hp]
    | result d => simp at h
    | error m => simp at h

/-- C9: the stream consumed by analyzeStats resolves with the normalized
data of the first result event and stops reading, rejects with the
server-supplied message on the first error event, skips lines that are not
valid JSON objects with a string type without aborting, and rejects with
the exact message "Stream ended without receiving analysis result" when
neither a result nor an error event arrives. -/
theorem analyzeStats_stream_spec :
    (∀ (pre : List (Option JValue)) (ev d : Option JValue)
        (post : List (Option JValue)) (leftover : Option JValue),
      (∀ l ∈ pre, isTerminal l = false) →
      parseAnalyzeEvent ev = some (.result d) →
      runStream (pre ++ ev :: post) leftover = .ok (normalizeAnalysisResult d)) ∧
    (∀ (pre : List (Option JValue)) (ev : Option JValue) (m : String)
        (post : List (Option JValue)) (leftover : Option JValue),
      (∀ l ∈ pre, isTerminal l = false) →
      parseAnalyzeEvent ev = some (.error m) →
      runStream (pre ++ ev :: post) leftover = .err m) ∧
    (∀ (junk : Option JValue) (rest : List (Option JValue)) (leftover : Option JValue),
      parseAnalyzeEvent junk = none →
      runStream (junk :: rest) leftover = runStream rest leftover) ∧
    (∀ (lines : List (Option JValue)) (leftover : Option JValue),
      (∀ l ∈ lines, isTerminal l = false) → isTerminal leftover = false →
      runStream lines leftover = .err streamEndedMessage) := by
  refine ⟨?_, ?_, ?_, ?_⟩
  · intro pre ev d post leftover hpre hev
    induction pre with
    | nil => simp [runStream, hev]
    | cons a t ih =>
      rw [List.cons_append, runStream_skip a _ _ (hpre a (List.mem_cons_self a t))]
      exact ih (fun l hl => hpre l (List.mem_cons_of_mem a hl))
  · intro pre ev m post leftover hpre hev
    induction pre with
    | nil => simp [runStream, hev]
    | cons a t ih =>
      rw [List.cons_append, runStream_skip a _ _ (hpre a (List.mem_cons_self a t))]
      exact ih (fun l hl => hpre l (List.mem_cons_of_mem a hl))
  · intro junk rest leftover hj
    simp [runStream, hj]
  · intro lines leftover hlines hleft
    induction lines with
    | nil =>
      unfold isTerminal at hleft
      rcases hp : parseAnalyzeEvent leftover with _ | ev
      · simp [runStream, hp, streamEndedMessage]
      · rw [hp] at hleft
        cases ev with
        | progress m p s li q qp => simp [runStream, hp, streamEndedMessage]
        | result d => simp at hleft
        | error m => simp at hleft
    | cons a t ih =>
      rw [runStream_skip a t leftover (hlines a (List.mem_cons_self a t))]
      exact ih (fun l hl => hlines l (List.mem_cons_of_mem a hl))

/-- Witness for C9: a stream with an invalid line, a progress event, a
result event and a late error event resolves with the normalized data of
the first result; the late error is never reached. -/
theorem analyzeStats_stream_spec_witness :
    runStream
      [none,
       some (.obj [("type", .str "progress"), ("message", .str "working"),
                   ("percent", .num 50)]),
       some (.obj [("type", .str "result"), ("data", .num 1)]),
       some (.obj [("type", .str "error"), ("message", .str "late")])] none =
      .ok (normalizeAnalysisResult (some (.num 1))) :=
  analyzeStats_stream_spec.1
    [none,
     some (.obj [("type", .str "progress"), ("message", .str "working"),
                 ("percent", .num 50)])]
    (some (.obj [("type", .str "result"), ("data", .num 1)]))
    (some (.num 1))
    [some (.obj [("type", .str "error"), ("message", .str "late")])] none
    (by decide) rfl

theorem foldl_add_eq_sum (l : List ℝ) : l.foldl (· + ·) 0 = l.sum :=
  List.sum_eq_foldl.symm

theorem foldl_sq_eq_sum (l : List ℝ) (m : ℝ) :
    l.foldl (fun a b => a + (b - m) ^ 2) 0 = (l.map (fun b => (b - m) ^ 2)).sum := by
  rw [List.sum_eq_foldl, List.foldl_map]

/-- C3: the training-window consistency score equals
100 × (1 − 2 × cv(goldPerMinute)), i.e. 100 − 200 × (std/mean), clamped to
[0, 100]; the chart code instead computes max(0, 100 − cv × 1000) over a
rolling window of the last 5 games, which also always lies in [0, 100]. -/
theorem consistency_score_spec (gpm : List ℝ) (idx : ℕ) :
    consistencyScore gpm =
      min 100 (max 0 (100 - 200 * (listStd gpm / listMean gpm))) ∧
    (0 ≤ consistencyScore gpm ∧ consistencyScore gpm ≤ 100) ∧
    (chartConsistency gpm idx =
      max 0 (100 -
        (if 0 < listMean ((gpm.drop (idx - 4)).take (idx + 1 - (idx - 4))) then
          listStd ((gpm.drop (idx - 4)).take (idx + 1 - (idx - 4))) /
            listMean ((gpm.drop (idx - 4)).take (idx + 1 - (idx - 4)))
        else 0) * 1000)) ∧
    (0 ≤ chartConsistency gpm idx ∧ chartConsistency gpm idx ≤ 100) := by
  have hchart : chartConsistency gpm idx =
      max 0 (100 -
        (if 0 < listMean ((gpm.drop (idx - 4)).take (idx + 1 - (idx - 4))) then
          listStd ((gpm.drop (idx - 4)).take (idx + 1 - (idx - 4))) /
            listMean ((gpm.drop (idx - 4)).take (idx + 1 - (idx - 4)))
        else 0) * 1000) := by
    unfold chartConsistency
    simp only [foldl_add_eq_sum, foldl_sq_eq_sum]
    rfl
  have hcv : 0 ≤
      (if 0 < listMean ((gpm.drop (idx - 4)).take (idx + 1 - (idx - 4))) then
        listStd ((gpm.drop (idx - 4)).take (idx + 1 - (idx - 4))) /
          listMean ((gpm.drop (idx - 4)).take (idx + 1 - (idx - 4)))
      else 0) := by
    split
    · exact div_nonneg (Real.sqrt_nonneg _) (by linarith)
    · exact le_refl 0
  refine ⟨?_, ⟨?_, ?_⟩, hchart, ?_, ?_⟩
  · unfold consistencyScore
    congr 2
    ring
  · exact le_min (by norm_num) (le_max_left _ _)
  · exact min_le_left _ _
  · rw [hchart]
    exact le_max_left _ _
  · rw [hchart]
    refine max_le (by norm_num) ?_
    have : 0 ≤
        (if 0 < listMean ((gpm.drop (idx - 4)).take (idx + 1 - (idx - 4))) then
          listStd ((gpm.drop (idx - 4)).take (idx + 1 - (idx - 4))) /
            listMean ((gpm.drop (idx - 4)).take (idx + 1 - (idx - 4)))
        else 0) * 1000 := by
      exact mul_nonneg hcv (by norm_num)
    linarith

end LolAnalyzer
